import Mathlib

/-!
Verification development for the reddit-to-telegram polling bridge
(`src/reddit.py`).  The program polls a subreddit, filters submissions by
flair keyword, deduplicates against a persisted set of processed post ids,
and forwards matches to a notifier.  The definitions below are a shallow
embedding of the Python source:

* a Python `set` of strings is modelled as `Finset String` (Python sets are
  unordered: set equality and iteration forget insertion order);
* `list(processed_posts)` is modelled by `pyList`, a canonical enumeration
  that is a function of the set value only — in CPython the enumeration
  order is hash-table order, which likewise depends only on the set's
  contents (and the process's hash seed), never on insertion history;
* the persisted JSON file is modelled by `FileState` (missing, unreadable
  or corrupt, or a well-formed JSON array of strings);
* fallible I/O is modelled by explicit `Bool` outcome parameters, and code
  that catches all exceptions becomes a total function;
* the tenacity retry wrapper on `send_notification` (3 attempts) becomes
  `send_notification` applied to an oracle of per-attempt outcomes;
* one poll tick of `main` (fetch, filter, reverse, deliver) is `tickOnce`,
  producing the trace of notifier invocations and set additions.
-/

/-- Item record: the fields of a praw submission that `reddit.py` reads.
`link_flair_text` is `None`-able in praw, hence `Option String`. -/
structure Item where
  id : String
  title : String
  url : String
  shortlink : String
  link_flair_text : Option String
deriving DecidableEq, Repr

/-- Character-list prefix test (Python-style, used to build substring
containment). -/
def chPre : List Char → List Char → Bool
  | [], _ => true
  | _ :: _, [] => false
  | a :: as, b :: bs => (a == b) && chPre as bs

/-- Substring containment over character lists: Python's `pat in hay`. -/
def chSub (pat : List Char) : List Char → Bool
  | [] => pat.isEmpty
  | c :: rest => chPre pat (c :: rest) || chSub pat rest

/-- Python's `pat in hay` on strings (substring containment). -/
def pyIn (pat hay : String) : Bool :=
  chSub pat.toList hay.toList

/-- Python's `str.lower()`, character-wise (ASCII case mapping). -/
def pyLower (s : String) : String :=
  String.mk (s.data.map Char.toLower)

/-- Flair test from `fetch_new_posts`:
`FLAIR_KEYWORD in (s.link_flair_text or "").lower()`.  A missing flair is
treated as the empty string; `kw` stands for `FLAIR_KEYWORD`, which the
startup code has already lower-cased. -/
def matchesFlair (kw : String) (s : Item) : Bool :=
  pyIn kw (pyLower (s.link_flair_text.getD ""))

/-- Filtering step of `fetch_new_posts` (`reddit.py` lines 104-108): the
list comprehension keeping submissions whose id is not in
`processed_posts` and whose flair matches.  `listing` is the result of the
(successful) `subreddit.new(limit=20)` call, newest first. -/
def fetch_new_posts (kw : String) (processed_posts : Finset String)
    (listing : List Item) : List Item :=
  listing.filter fun s => !(decide (s.id ∈ processed_posts)) && matchesFlair kw s

/-- Persisted-file states for `PROCESSED_POSTS_FILE`: absent, present but
unreadable/unparseable, or a well-formed JSON array of strings. -/
inductive FileState where
  | missing
  | corrupt
  | content (ids : List String)
deriving DecidableEq, Repr

/-- Serialization order of `list(processed_posts)` in `save_processed_posts`:
a canonical enumeration of the set.  CPython enumerates a set in hash-table
order, a function of the set's contents only; any such function can be
substituted here without affecting the theorems below. -/
def pyList (s : Finset String) : List String :=
  s.sort (fun a b => a ≤ b)

/-- Embedding of `load_processed_posts` (`reddit.py` lines 81-88): missing
file yields the empty set; any read/parse exception is caught, logged, and
also yields the empty set; a well-formed file yields `set(json.load(f))`.
Totality of this function models that `load_processed_posts` never raises. -/
def load_processed_posts : FileState → Finset String
  | FileState.missing => ∅
  | FileState.corrupt => ∅
  | FileState.content l => l.toFinset

/-- Embedding of `save_processed_posts` (`reddit.py` lines 90-96): writes
`list(processed_posts)` as JSON, overwriting the file; on an I/O exception
the error is caught and logged (modelled as the file left in the `corrupt`
state, the worst case of a truncated write).  The first component is the
in-memory set after the call: the function body never mutates it.
Totality models that `save_processed_posts` never raises. -/
def save_processed_posts (processed_posts : Finset String) (writeOk : Bool) :
    Finset String × FileState :=
  if writeOk then (processed_posts, FileState.content (pyList processed_posts))
  else (processed_posts, FileState.corrupt)

/-- C4: save/load round-trip.  For every finite set `S` of string ids,
including `∅`, a successful `save(S)` followed by a successful `load()`
returns a set equal to `S`. -/
theorem save_load_round_trip (S : Finset String) :
    load_processed_posts (save_processed_posts S true).2 = S := by
  simp [save_processed_posts, load_processed_posts, pyList, Finset.sort_toFinset]

/-- C5: `load_processed_posts` never raises (it is a total function of the
file state), and both on a missing file and on any read/parse failure it
returns the empty set. -/
theorem load_degrades_to_empty :
    load_processed_posts FileState.missing = ∅ ∧
    load_processed_posts FileState.corrupt = ∅ := by
  exact ⟨rfl, rfl⟩

/-- C6: `save_processed_posts` never raises (it is a total function of the
set and the write outcome), and for every set `S` and every write outcome —
in particular a failed write — the in-memory set after the call is `S`
unchanged. -/
theorem save_preserves_memory (S : Finset String) (writeOk : Bool) :
    (save_processed_posts S writeOk).1 = S := by
  cases writeOk <;> rfl

/-- Supporting fact for C7 (used by no claim theorem, recorded as the general
reason the claim fails): the saved order is a function of the set value
alone, and a Python set forgets insertion order — adding "b" then "a" and
adding "a" then "b" produce equal sets, so no enumeration function of the
set can return the insertion order for both histories. -/
theorem no_enumeration_tracks_insertion_order
    (enum : Finset String → List String) :
    ¬(enum (insert "a" (insert "b" (∅ : Finset String))) = ["b", "a"] ∧
      enum (insert "b" (insert "a" (∅ : Finset String))) = ["a", "b"]) := by
  intro h
  have hsets : insert "a" (insert "b" (∅ : Finset String)) =
      insert "b" (insert "a" (∅ : Finset String)) := by
    decide
  have h2 := h.2
  rw [← hsets, h.1] at h2
  exact absurd h2 (by decide)

/-- C7 counterexample: run the program so that id "b" is added to
ProcessedSet first and id "a" second; the following successful save does
not write the list `["b", "a"]`, i.e. the persisted list is not in
insertion order ( `list(processed_posts)` enumerates the set, which has
forgotten insertion history; this model's enumeration yields `["a", "b"]`). -/
theorem save_not_insertion_order :
    (save_processed_posts (insert "a" (insert "b" (∅ : Finset String))) true).2 ≠
      FileState.content ["b", "a"] := by
  have hlist : pyList (insert "a" (insert "b" (∅ : Finset String))) = ["a", "b"] := by
    rw [pyList, Finset.sort_insert, Finset.sort_insert, Finset.sort_empty]
    · intro b hb; exact absurd hb (Finset.not_mem_empty b)
    · exact Finset.not_mem_empty _
    · intro b hb
      simp only [Finset.mem_insert, Finset.not_mem_empty, or_false] at hb
      subst hb
      exact String.le_iff_toList_le.mpr (by decide)
    · decide
  intro h
  rw [save_processed_posts, if_pos rfl, hlist] at h
  exact absurd (FileState.content.inj h) (by decide)

/-- C7 amended: a successful save writes the file as a list holding exactly
the elements of ProcessedSet, without duplicates; its order is an
enumeration of the set value (hash-table order in CPython), not the
insertion order. -/
theorem save_writes_set_elements (S : Finset String) :
    ∃ l, (save_processed_posts S true).2 = FileState.content l ∧
      l.toFinset = S ∧ l.Nodup := by
  refine ⟨pyList S, rfl, ?_, ?_⟩
  · exact Finset.sort_toFinset _ S
  · exact Finset.sort_nodup _ S

/-- Observable events of the Poller's delivering phase: an invocation of the
Notifier Adapter (`send_notification(submission)`) for a post id, and the
addition of a post id to the in-memory ProcessedSet
(`processed_posts.add(submission.id)`). -/
inductive Event where
  | notify (id : String)
  | add (id : String)
deriving DecidableEq, Repr

/-- Embedding of `send_notification` (`reddit.py` lines 119-132): the
tenacity decorator `@retry(wait=wait_fixed(2), stop=stop_after_attempt(3))`
retries the notify call up to 3 attempts.  `attempt n` is the outcome of
transport attempt `n`; the result is `true` exactly when one of the first
three attempts succeeds.  A `false` result models exhausted retries, in
which case the Python call raises `tenacity.RetryError` into its caller. -/
def send_notification (attempt : Nat → Bool) : Bool :=
  attempt 0 || attempt 1 || attempt 2

/-- Delivering phase of `main` (`reddit.py` lines 177-181): walk the
oldest-first item list; for each item call `send_notification`, then add
its id to `processed_posts` under the lock.  When a call exhausts its
retries, the raised error aborts the loop (it is caught by the handler at
line 183): the failed item's id is not added and no later item is visited.
Returns the event trace and the resulting set.  The `time.sleep(1)`
between deliveries is timing only and is not modelled. -/
def deliverLoop (ok : Item → Bool) : List Item → Finset String → List Event × Finset String
  | [], p => ([], p)
  | s :: rest, p =>
    if ok s then
      (Event.notify s.id :: Event.add s.id :: (deliverLoop ok rest (insert s.id p)).1,
        (deliverLoop ok rest (insert s.id p)).2)
    else
      ([Event.notify s.id], p)

/-- One tick of `main`'s polling loop (`reddit.py` lines 176-181), given a
successful fetch result `fetched` (newest first): filter via
`fetch_new_posts`, reverse to oldest-first, then deliver. -/
def tickOnce (attempt : Item → Nat → Bool) (kw : String) (fetched : List Item)
    (p : Finset String) : List Event × Finset String :=
  deliverLoop (fun s => send_notification (attempt s))
    ((fetch_new_posts kw p fetched).reverse) p

/-- A run of `main`'s infinite loop over a sequence of successful fetch
results, one per tick, concatenating the per-tick event traces.  The
`except` handler at line 183 absorbs a tick's delivery failure and the
loop continues with the next tick, which is exactly how `tickOnce`
results chain here. -/
def runTicks (attempt : Item → Nat → Bool) (kw : String) :
    List (List Item) → Finset String → List Event × Finset String
  | [], p => ([], p)
  | f :: fs, p =>
    ((tickOnce attempt kw f p).1 ++ (runTicks attempt kw fs (tickOnce attempt kw f p).2).1,
      (runTicks attempt kw fs (tickOnce attempt kw f p).2).2)

/-- Event trace of a delivery run in which every notification succeeds:
notify then add, item by item. -/
def happyTrace : List Item → List Event
  | [] => []
  | s :: rest => Event.notify s.id :: Event.add s.id :: happyTrace rest

/-- Set obtained from `p` by adding each listed item's id in order. -/
def insertIds : List Item → Finset String → Finset String
  | [], p => p
  | s :: rest, p => insertIds rest (insert s.id p)

/-- Ids passed to the Notifier Adapter, in invocation order. -/
def notifyLog (evs : List Event) : List String :=
  evs.filterMap fun e =>
    match e with
    | Event.notify i => some i
    | Event.add _ => none

/-- Trace invariant: in every prefix of the trace, an id that has been
added to ProcessedSet has already been passed to the Notifier Adapter. -/
def addsDominated (evs : List Event) : Prop :=
  ∀ n i, Event.add i ∈ evs.take n → Event.notify i ∈ evs.take n

/-- Required environment variables checked at startup
(`reddit.py` lines 30-36 and 60-62). -/
structure Config where
  REDDIT_CLIENT_ID : Option String
  REDDIT_CLIENT_SECRET : Option String
  REDDIT_USER_AGENT : Option String
  APPRISE_URL : Option String
deriving DecidableEq

/-- Python truthiness of an optional string (an unset variable is `None`,
and both `None` and the empty string are falsy in `all([...])`). -/
def pyTruthy : Option String → Bool
  | none => false
  | some s => !s.isEmpty

/-- The `all([...])` test of `reddit.py` line 60. -/
def configComplete (c : Config) : Bool :=
  pyTruthy c.REDDIT_CLIENT_ID && pyTruthy c.REDDIT_CLIENT_SECRET &&
    pyTruthy c.REDDIT_USER_AGENT && pyTruthy c.APPRISE_URL

/-- Startup validation (`reddit.py` lines 60-62): on a missing required
variable the process logs and calls `sys.exit(1)` before the main loop;
`none` means validation passed and startup proceeds into `main`. -/
def startupCheck (c : Config) : Option Nat :=
  if configComplete c then none else some 1

/-- Embedding of `handle_shutdown` (`reddit.py` lines 154-160): on SIGINT
or SIGTERM, save the in-memory set if initialized (under the lock) and
exit with code 0.  The second component is the process exit code. -/
def handle_shutdown (processed_posts : Option (Finset String)) (writeOk : Bool)
    (fs : FileState) : FileState × Nat :=
  match processed_posts with
  | none => (fs, 0)
  | some s => ((save_processed_posts s writeOk).2, 0)

/-- Concrete submission with a matching flair, id "1" (oldest in the
end-to-end scenario). -/
def mediaItem1 : Item := ⟨"1", "post one", "u1", "s1", some "Media"⟩

/-- Concrete submission with a matching flair, id "2". -/
def mediaItem2 : Item := ⟨"2", "post two", "u2", "s2", some "Media"⟩

/-- Concrete submission with a matching flair, id "3" (newest). -/
def mediaItem3 : Item := ⟨"3", "post three", "u3", "s3", some "Media"⟩

/-- Attempt oracle under which every notification for the item with id "2"
fails (all three attempts) and every other notification succeeds. -/
def attemptFail2 (s : Item) : Nat → Bool :=
  fun _ => !(s.id == "2")

/-- Delivery run in which every notification succeeds: the trace is the
happy trace and every id is added in order. -/
theorem deliverLoop_allOk (ok : Item → Bool) :
    ∀ (items : List Item) (p : Finset String), (∀ x ∈ items, ok x = true) →
      deliverLoop ok items p = (happyTrace items, insertIds items p)
  | [], _, _ => rfl
  | s :: rest, p, h => by
    have hs : ok s = true := h s (List.mem_cons_self s rest)
    have hrest := deliverLoop_allOk ok rest (insert s.id p)
      fun x hx => h x (List.mem_cons_of_mem s hx)
    simp [deliverLoop, hs, hrest, happyTrace, insertIds]

/-- Delivery run that reaches a failing item after a run of successes: the
failing call's error aborts the loop right after its notify event, leaving
only the successful items' ids added. -/
theorem deliverLoop_abort (ok : Item → Bool) (f : Item) (rest : List Item)
    (hf : ok f = false) :
    ∀ (good : List Item) (p : Finset String), (∀ x ∈ good, ok x = true) →
      deliverLoop ok (good ++ f :: rest) p =
        (happyTrace good ++ [Event.notify f.id], insertIds good p)
  | [], p, _ => by simp [deliverLoop, hf, happyTrace, insertIds]
  | g :: gs, p, h => by
    have hg : ok g = true := h g (List.mem_cons_self g gs)
    have hgs := deliverLoop_abort ok f rest hf gs (insert g.id p)
      fun x hx => h x (List.mem_cons_of_mem g hx)
    simp [deliverLoop, hg, hgs, happyTrace, insertIds]

/-- Membership in the set produced by `insertIds`. -/
theorem mem_insertIds (x : String) :
    ∀ (items : List Item) (p : Finset String),
      (x ∈ insertIds items p ↔ x ∈ p ∨ x ∈ items.map Item.id)
  | [], p => by simp [insertIds]
  | s :: rest, p => by
    rw [show insertIds (s :: rest) p = insertIds rest (insert s.id p) from rfl,
      mem_insertIds x rest]
    simp only [Finset.mem_insert, List.map_cons, List.mem_cons]
    tauto

/-- A notify event in a happy trace names one of the delivered items. -/
theorem notify_mem_happyTrace (i : String) :
    ∀ items : List Item, Event.notify i ∈ happyTrace items → i ∈ items.map Item.id
  | [] => by simp [happyTrace]
  | s :: rest => by
    intro h
    simp only [happyTrace, List.mem_cons] at h
    rcases h with h | h | h
    · rw [Event.notify.inj h]; simp
    · exact Event.noConfusion h
    · exact List.mem_cons_of_mem _ (notify_mem_happyTrace i rest h)

/-- A notify event in a delivery trace names one of the listed items. -/
theorem notify_mem_deliverLoop (ok : Item → Bool) (i : String) :
    ∀ (items : List Item) (p : Finset String),
      Event.notify i ∈ (deliverLoop ok items p).1 → i ∈ items.map Item.id
  | [], p => by simp [deliverLoop]
  | s :: rest, p => by
    intro h
    by_cases hs : ok s = true
    · simp only [deliverLoop, if_pos hs, List.mem_cons] at h
      rcases h with h | h | h
      · rw [Event.notify.inj h]; simp
      · exact Event.noConfusion h
      · exact List.mem_cons_of_mem _ (notify_mem_deliverLoop ok i rest (insert s.id p) h)
    · simp [deliverLoop, hs] at h
      simp [h]

/-- An id in the set after a delivery run was either there before, or
belongs to a listed item whose notification succeeded. -/
theorem mem_deliverLoop_sets (ok : Item → Bool) (i : String) :
    ∀ (items : List Item) (p : Finset String),
      i ∈ (deliverLoop ok items p).2 → i ∈ p ∨ ∃ s ∈ items, s.id = i ∧ ok s = true
  | [], p => by simp [deliverLoop]
  | s :: rest, p => by
    intro h
    by_cases hs : ok s = true
    · simp [deliverLoop, hs] at h
      rcases mem_deliverLoop_sets ok i rest (insert s.id p) h with h2 | ⟨t, ht, hti, htok⟩
      · rcases Finset.mem_insert.mp h2 with h3 | h3
        · exact Or.inr ⟨s, List.mem_cons_self s rest, h3.symm, hs⟩
        · exact Or.inl h3
      · exact Or.inr ⟨t, List.mem_cons_of_mem s ht, hti, htok⟩
    · simp [deliverLoop, hs] at h
      exact Or.inl h

/-- Membership characterization of the `fetch_new_posts` filter. -/
theorem mem_fetch_new_posts (kw : String) (p : Finset String) (listing : List Item)
    (s : Item) :
    s ∈ fetch_new_posts kw p listing ↔
      (s ∈ listing ∧ s.id ∉ p ∧ matchesFlair kw s = true) := by
  simp [fetch_new_posts, List.mem_filter]

/-- Empty trace satisfies the domination invariant. -/
theorem addsDominated_nil : addsDominated [] := by
  intro n i h
  simp at h

/-- The domination invariant is preserved by trace concatenation. -/
theorem addsDominated_append (l1 l2 : List Event) (h1 : addsDominated l1)
    (h2 : addsDominated l2) : addsDominated (l1 ++ l2) := by
  intro n i hmem
  rw [List.take_append_eq_append_take] at hmem ⊢
  rcases List.mem_append.mp hmem with h | h
  · exact List.mem_append.mpr (Or.inl (h1 n i h))
  · exact List.mem_append.mpr (Or.inr (h2 _ i h))

/-- Prefixing a successful notify/add pair preserves the invariant. -/
theorem addsDominated_pair (a : String) (evs : List Event) (h : addsDominated evs) :
    addsDominated (Event.notify a :: Event.add a :: evs) := by
  intro n i hmem
  match n with
  | 0 => simp at hmem
  | 1 => simp [List.take_succ_cons] at hmem
  | k + 2 =>
    simp only [List.take_succ_cons, List.mem_cons] at hmem ⊢
    rcases hmem with h1 | h1 | h1
    · exact Event.noConfusion h1
    · exact Or.inl (by rw [Event.add.inj h1])
    · exact Or.inr (Or.inr (h k i h1))

/-- A lone notify event satisfies the invariant. -/
theorem addsDominated_single (a : String) : addsDominated [Event.notify a] := by
  intro n i hmem
  match n with
  | 0 => simp at hmem
  | k + 1 => simp [List.take_succ_cons] at hmem

/-- Every delivery-phase trace satisfies the domination invariant. -/
theorem deliverLoop_addsDominated (ok : Item → Bool) :
    ∀ (items : List Item) (p : Finset String), addsDominated (deliverLoop ok items p).1
  | [], _ => addsDominated_nil
  | s :: rest, p => by
    by_cases hs : ok s = true
    · have h := addsDominated_pair s.id _ (deliverLoop_addsDominated ok rest (insert s.id p))
      simpa [deliverLoop, hs] using h
    · have h := addsDominated_single s.id
      simpa [deliverLoop, hs] using h

/-- Every single-tick trace satisfies the domination invariant. -/
theorem tickOnce_addsDominated (attempt : Item → Nat → Bool) (kw : String)
    (fetched : List Item) (p : Finset String) :
    addsDominated (tickOnce attempt kw fetched p).1 :=
  deliverLoop_addsDominated _ _ _

/-- Every multi-tick trace satisfies the domination invariant. -/
theorem runTicks_addsDominated (attempt : Item → Nat → Bool) (kw : String) :
    ∀ (fetches : List (List Item)) (p : Finset String),
      addsDominated (runTicks attempt kw fetches p).1
  | [], _ => addsDominated_nil
  | f :: fs, p => by
    have h := addsDominated_append _ _
      (tickOnce_addsDominated attempt kw f p)
      (runTicks_addsDominated attempt kw fs (tickOnce attempt kw f p).2)
    simpa [runTicks] using h

/-- C8: invariant over every execution of the loop — an identifier is added
to ProcessedSet only after a notification attempt has been made for the
item with that id: in every prefix of the event trace of any multi-tick
run, every added id already has a notify event. -/
theorem add_only_after_notify (attempt : Item → Nat → Bool) (kw : String)
    (fetches : List (List Item)) (p : Finset String) :
    addsDominated (runTicks attempt kw fetches p).1 :=
  runTicks_addsDominated attempt kw fetches p

/-- C2: the filtering step keeps exactly the items whose id is absent from
ProcessedSet and whose flair text (empty when absent), lower-cased,
contains the configured keyword substring; in particular an item whose id
is already in ProcessedSet is never selected, and no notification for an
already-processed id is ever issued in the tick. -/
theorem filter_selects_unseen_flair_matches (kw : String) (p : Finset String)
    (listing : List Item) :
    (∀ s : Item, s ∈ fetch_new_posts kw p listing ↔
      (s ∈ listing ∧ s.id ∉ p ∧ matchesFlair kw s = true)) ∧
    (∀ (attempt : Item → Nat → Bool) (i : String), i ∈ p →
      Event.notify i ∉ (tickOnce attempt kw listing p).1) := by
  refine ⟨mem_fetch_new_posts kw p listing, ?_⟩
  intro attempt i hip hnot
  have h1 := notify_mem_deliverLoop (fun s => send_notification (attempt s)) i
    ((fetch_new_posts kw p listing).reverse) p hnot
  rcases List.mem_map.mp h1 with ⟨s, hs, hid⟩
  have hs2 : s ∈ fetch_new_posts kw p listing := List.mem_reverse.mp hs
  have h3 := ((mem_fetch_new_posts kw p listing s).mp hs2).2.1
  rw [hid] at h3
  exact h3 hip

/-- Witness for C2 at a concrete input: with ProcessedSet containing "1",
the already-seen item with id "1" satisfies the selection iff (and is in
fact excluded), and no notification for id "1" occurs in the tick. -/
theorem filter_selects_witness :
    (mediaItem1 ∈ fetch_new_posts "media" (insert "1" ∅) [mediaItem1] ↔
      (mediaItem1 ∈ [mediaItem1] ∧ mediaItem1.id ∉ insert "1" (∅ : Finset String) ∧
        matchesFlair "media" mediaItem1 = true)) ∧
    Event.notify "1" ∉ (tickOnce (fun _ _ => true) "media" [mediaItem1] (insert "1" ∅)).1 :=
  ⟨(filter_selects_unseen_flair_matches "media" (insert "1" ∅) [mediaItem1]).1 mediaItem1,
   (filter_selects_unseen_flair_matches "media" (insert "1" ∅) [mediaItem1]).2
     (fun _ _ => true) "1" (by decide)⟩

/-- C3: delivery order is oldest-first — for a fetch result `[c, b, a]`
(newest first) whose three items are unseen, flair-matching, and whose
notifications succeed, the Notifier Adapter is invoked for `a`, then `b`,
then `c`. -/
theorem delivery_order_oldest_first (attempt : Item → Nat → Bool) (kw : String)
    (p : Finset String) (a b c : Item)
    (ha1 : a.id ∉ p) (ha2 : matchesFlair kw a = true)
    (ha3 : send_notification (attempt a) = true)
    (hb1 : b.id ∉ p) (hb2 : matchesFlair kw b = true)
    (hb3 : send_notification (attempt b) = true)
    (hc1 : c.id ∉ p) (hc2 : matchesFlair kw c = true)
    (hc3 : send_notification (attempt c) = true) :
    notifyLog (tickOnce attempt kw [c, b, a] p).1 = [a.id, b.id, c.id] := by
  have hfetch : fetch_new_posts kw p [c, b, a] = [c, b, a] := by
    apply List.filter_eq_self.mpr
    intro x hx
    simp only [List.mem_cons, List.not_mem_nil, or_false] at hx
    rcases hx with h | h | h <;> subst h <;>
      simp [ha1, ha2, hb1, hb2, hc1, hc2]
  have hall : ∀ x ∈ [a, b, c], (fun s => send_notification (attempt s)) x = true := by
    intro x hx
    simp only [List.mem_cons, List.not_mem_nil, or_false] at hx
    rcases hx with h | h | h <;> subst h
    · exact ha3
    · exact hb3
    · exact hc3
  have hrev : ([c, b, a] : List Item).reverse = [a, b, c] := rfl
  have hrun := deliverLoop_allOk (fun s => send_notification (attempt s)) [a, b, c] p hall
  rw [tickOnce, hfetch, hrev, hrun]
  rfl

/-- Witness for C3 at concrete items: the tick over the newest-first fetch
result [item3, item2, item1] notifies "1", "2", "3" in that order. -/
theorem delivery_order_witness :
    notifyLog (tickOnce (fun _ _ => true) "media" [mediaItem3, mediaItem2, mediaItem1]
      (∅ : Finset String)).1 = [mediaItem1.id, mediaItem2.id, mediaItem3.id] :=
  delivery_order_oldest_first (fun _ _ => true) "media" ∅ mediaItem1 mediaItem2 mediaItem3
    (by decide) (by decide) rfl (by decide) (by decide) rfl (by decide) (by decide) rfl

/-- C1 counterexample: a concrete tick in which the single filtered item's
notification exhausts all three retry attempts.  The notify call is made
(`Event.notify "1"` is in the trace), the raised RetryError aborts the
loop, and id "1" is NOT added to ProcessedSet — refuting the claim that an
item whose retries exhaust is still marked processed. -/
theorem exhausted_retries_not_marked_cx :
    send_notification (fun _ => false) = false ∧
    (tickOnce (fun _ _ => false) "media" [mediaItem1] ∅).1 = [Event.notify "1"] ∧
    "1" ∉ (tickOnce (fun _ _ => false) "media" [mediaItem1] ∅).2 := by
  refine ⟨rfl, ?_, ?_⟩ <;> decide

/-- C1 amended: when an item's notification call exhausts its bounded
retries, the raised error propagates to the tick's exception handler and
the item's id is NOT added to ProcessedSet — an unseen item all of whose
notification calls in the tick fail is never marked processed by that
tick. -/
theorem exhausted_retries_leave_unmarked (attempt : Item → Nat → Bool) (kw : String)
    (fetched : List Item) (p : Finset String) (x : Item)
    (hx : x.id ∉ p)
    (hfail : ∀ y ∈ fetched, y.id = x.id → send_notification (attempt y) = false) :
    x.id ∉ (tickOnce attempt kw fetched p).2 := by
  intro hmem
  have h1 := mem_deliverLoop_sets (fun s => send_notification (attempt s)) x.id
    ((fetch_new_posts kw p fetched).reverse) p hmem
  rcases h1 with h | ⟨s, hs, hsid, hok⟩
  · exact hx h
  · have hsf : s ∈ fetched := List.mem_of_mem_filter (List.mem_reverse.mp hs)
    have hok2 : send_notification (attempt s) = true := hok
    rw [hfail s hsf hsid] at hok2
    exact Bool.noConfusion hok2

/-- Witness for the amended C1 at a concrete input: every attempt fails, so
id "1" is absent from the final set. -/
theorem exhausted_retries_leave_unmarked_witness :
    mediaItem1.id ∉ (tickOnce (fun _ _ => false) "media" [mediaItem1] (∅ : Finset String)).2 :=
  exhausted_retries_leave_unmarked (fun _ _ => false) "media" [mediaItem1] ∅ mediaItem1
    (by decide) (fun _ _ _ => rfl)

/-- C9: when the notification retries are exhausted for item `f` after the
successfully delivered oldest-first prefix `good` of the filtered batch,
the raised error aborts the remainder of the tick: the trace stops at
`f`'s notify event, neither `f`'s id nor any remaining item's id is added
to ProcessedSet, no remaining item is delivered in the tick, and `f`
remains eligible for selection by a later fetch. -/
theorem exhausted_retries_abort_tick (attempt : Item → Nat → Bool) (kw : String)
    (fetched : List Item) (p : Finset String) (good : List Item) (f : Item)
    (rest : List Item)
    (hsplit : (fetch_new_posts kw p fetched).reverse = good ++ f :: rest)
    (hgood : ∀ x ∈ good, send_notification (attempt x) = true)
    (hf : send_notification (attempt f) = false)
    (hfg : f.id ∉ good.map Item.id)
    (hrestg : ∀ y ∈ rest, y.id ∉ good.map Item.id) :
    (tickOnce attempt kw fetched p).1 = happyTrace good ++ [Event.notify f.id] ∧
    f.id ∉ (tickOnce attempt kw fetched p).2 ∧
    (∀ y ∈ rest, y.id ∉ (tickOnce attempt kw fetched p).2) ∧
    (∀ y ∈ rest, y.id ≠ f.id → Event.notify y.id ∉ (tickOnce attempt kw fetched p).1) ∧
    (∀ listing2, f ∈ listing2 →
      f ∈ fetch_new_posts kw (tickOnce attempt kw fetched p).2 listing2) := by
  have hE : tickOnce attempt kw fetched p =
      (happyTrace good ++ [Event.notify f.id], insertIds good p) := by
    rw [tickOnce, hsplit]
    exact deliverLoop_abort _ f rest hf good p hgood
  have hfmem : f ∈ fetch_new_posts kw p fetched := by
    rw [← List.mem_reverse, hsplit]
    simp
  have hfid : f.id ∉ p := ((mem_fetch_new_posts kw p fetched f).mp hfmem).2.1
  have hfflair : matchesFlair kw f = true :=
    ((mem_fetch_new_posts kw p fetched f).mp hfmem).2.2
  have hrestp : ∀ y ∈ rest, y.id ∉ p := by
    intro y hy
    have hymem : y ∈ fetch_new_posts kw p fetched := by
      rw [← List.mem_reverse, hsplit]
      simp [hy]
    exact ((mem_fetch_new_posts kw p fetched y).mp hymem).2.1
  have hfnotin : f.id ∉ insertIds good p := by
    intro h
    rcases (mem_insertIds f.id good p).mp h with h2 | h2
    · exact hfid h2
    · exact hfg h2
  refine ⟨by rw [hE], by rw [hE]; exact hfnotin, ?_, ?_, ?_⟩
  · intro y hy
    rw [hE]
    intro h
    rcases (mem_insertIds y.id good p).mp h with h2 | h2
    · exact (hrestp y hy) h2
    · exact (hrestg y hy) h2
  · intro y hy hne
    rw [hE]
    intro hmem
    rcases List.mem_append.mp hmem with h | h
    · exact (hrestg y hy) (notify_mem_happyTrace y.id good h)
    · exact hne (Event.notify.inj (List.mem_singleton.mp h))
  · intro listing2 hl2
    rw [hE]
    exact (mem_fetch_new_posts kw (insertIds good p) listing2 f).mpr ⟨hl2, hfnotin, hfflair⟩

/-- Witness for C9 at concrete inputs: fetch yields items "3", "2", "1"
(newest first), all flair-matching and unseen; the notification for "2"
always fails.  Item "1" is delivered and marked; "2" is notified but not
marked, "3" is neither notified nor marked, and "2" is selected again by a
later fetch containing it. -/
theorem exhausted_retries_abort_tick_witness :
    (tickOnce attemptFail2 "media" [mediaItem3, mediaItem2, mediaItem1] ∅).1 =
        happyTrace [mediaItem1] ++ [Event.notify mediaItem2.id] ∧
    mediaItem2.id ∉ (tickOnce attemptFail2 "media" [mediaItem3, mediaItem2, mediaItem1] ∅).2 ∧
    mediaItem3.id ∉ (tickOnce attemptFail2 "media" [mediaItem3, mediaItem2, mediaItem1] ∅).2 ∧
    Event.notify mediaItem3.id ∉
      (tickOnce attemptFail2 "media" [mediaItem3, mediaItem2, mediaItem1] ∅).1 ∧
    mediaItem2 ∈ fetch_new_posts "media"
      (tickOnce attemptFail2 "media" [mediaItem3, mediaItem2, mediaItem1] ∅).2
      [mediaItem2] := by
  have h := exhausted_retries_abort_tick attemptFail2 "media"
    [mediaItem3, mediaItem2, mediaItem1] ∅ [mediaItem1] mediaItem2 [mediaItem3]
    (by decide) (by decide) (by decide) (by decide) (by decide)
  exact ⟨h.1, h.2.1, h.2.2.1 mediaItem3 (List.mem_cons_self _ _),
    h.2.2.2.1 mediaItem3 (List.mem_cons_self _ _) (by decide),
    h.2.2.2.2 [mediaItem2] (List.mem_cons_self _ _)⟩

/-- C10 counterexample: with the required variables unset, the startup
validation path calls `sys.exit(1)` — exit code 1, not 0 — refuting the
claim that the fatal missing-configuration error path exits with code 0. -/
theorem missing_config_exit_nonzero_cx :
    startupCheck ⟨none, none, none, none⟩ = some 1 ∧
    startupCheck ⟨none, none, none, none⟩ ≠ some 0 := by
  refine ⟨rfl, ?_⟩
  decide

/-- C10 amended: the process exit code is 0 on graceful shutdown (SIGINT or
SIGTERM handled by `handle_shutdown`), while configuration validation
failure exits with the non-zero code 1, before the main loop starts. -/
theorem exit_codes (posts : Option (Finset String)) (writeOk : Bool) (fs : FileState)
    (c : Config) (hc : configComplete c = false) :
    (handle_shutdown posts writeOk fs).2 = 0 ∧ startupCheck c = some 1 := by
  constructor
  · cases posts <;> rfl
  · simp [startupCheck, hc]

/-- Witness for the amended C10 at concrete inputs: a shutdown with an
initialized set exits 0, and a configuration with one variable unset exits
with code 1. -/
theorem exit_codes_witness :
    (handle_shutdown (some ∅) true FileState.missing).2 = 0 ∧
    startupCheck ⟨some "id", some "secret", none, some "url"⟩ = some 1 :=
  exit_codes (some ∅) true FileState.missing
    ⟨some "id", some "secret", none, some "url"⟩ (by decide)
